import Mathlib

/-!
Verification development for the Teamwork Desk Go SDK client core:
the middleware-chained HTTP execution pipeline (client.doRequest,
client.RetryMiddleware), the generic resource service
(client.Service Get/List/Create/Update in resource.go), the
filter-expression builder, and the fixture generator ticket-type
lookup in main.go.

Conventions of the shallow embedding:
the Go pair return (resp, err) of a middleware or handler is an
Except value; the Go pair return (ptr, err) of a service operation is
an explicit pair of options, so that the dichotomy between result and
error is a provable property rather than a typing artifact; Go errors
produced with fmt.Errorf are their message strings; the effectful
steps of a service operation (request construction, transport
exchange, body read, JSON decode) are parameters giving the outcome
of each step.
-/

set_option autoImplicit false

namespace DeskSDK

/-! ## Middleware chain (client.doRequest, src/unnamed/part_004 lines 136-149)

A Go MiddlewareFunc takes the request and the next handler and
returns the final outcome; dropping the context argument (which is
threaded through unchanged) a middleware is a function of the request
and of the next handler.  doRequest builds the composed handler by
iterating the middleware slice from the last index down to 0,
wrapping the accumulated handler each time, so the middleware at
index 0 ends outermost; that loop is exactly a right fold of the
middleware list over the terminal handler. -/

/-- One middleware: receives the request and the next handler. -/
def Middleware (Req Res : Type) : Type := Req → (Req → Res) → Res

/-- The composed handler built by the loop in Client.doRequest:
handler := finalHandler; for i := len(mws)-1 downto 0, wrap handler
in mws[i].  The result applies mws[0] first (outermost). -/
def buildChain {Req Res : Type} (mws : List (Middleware Req Res)) (final : Req → Res) :
    Req → Res :=
  mws.foldr (fun mw h => fun req => mw req h) final

/-- Events recorded by an instrumented middleware stack: entry into a
middleware, leaving a middleware, and the terminal send. -/
inductive TraceEvent where
  | enter : Nat → TraceEvent
  | leave : Nat → TraceEvent
  | send : TraceEvent
  deriving DecidableEq, Repr

/-- Middleware number i instrumented to record entry and leaving, as in
the spec property about pre/post processing order: the request is
paired with the event log. -/
def instrumented {Req Res : Type} (i : Nat) :
    Middleware (Req × List TraceEvent) (Res × List TraceEvent) :=
  fun p next =>
    let r := next (p.1, p.2 ++ [TraceEvent.enter i])
    (r.1, r.2 ++ [TraceEvent.leave i])

/-- The terminal handler (httpClient.Do) instrumented to record the send. -/
def terminalSend {Req Res : Type} (sendFn : Req → Res) :
    (Req × List TraceEvent) → (Res × List TraceEvent) :=
  fun p => (sendFn p.1, p.2 ++ [TraceEvent.send])

theorem buildChain_instrumented_log {Req Res : Type} (labels : List Nat)
    (sendFn : Req → Res) (req : Req) (log : List TraceEvent) :
    buildChain (labels.map instrumented) (terminalSend sendFn) (req, log) =
      (sendFn req,
        log ++ labels.map TraceEvent.enter ++ [TraceEvent.send] ++
          (labels.reverse.map TraceEvent.leave)) := by
  induction labels generalizing log with
  | nil => simp [buildChain, terminalSend]
  | cons i ls ih =>
    simp only [List.map_cons, buildChain, List.foldr_cons, instrumented] at *
    rw [ih]
    simp

/-- C1: for every list of middleware registered in order on a Client, the
composed pipeline built by Client.doRequest runs pre-processing in
declaration order and post-processing in strict reverse order: for
labels i1, ..., ik, the instrumented chain records enter i1, ...,
enter ik, the terminal send, then leave ik, ..., leave i1, for every
request, and the response is the one produced by the terminal send. -/
theorem doRequest_middleware_order {Req Res : Type} (labels : List Nat)
    (sendFn : Req → Res) (req : Req) :
    buildChain (labels.map instrumented) (terminalSend sendFn) (req, []) =
      (sendFn req,
        labels.map TraceEvent.enter ++ [TraceEvent.send] ++
          (labels.reverse.map TraceEvent.leave)) := by
  rw [buildChain_instrumented_log]
  simp

/-! ## Retry middleware (client.RetryMiddleware, src/unnamed/part_006 lines 45-73)

The Go loop runs attempt = 0 .. maxRetries; each iteration clones the
request and calls next; it breaks when next returns a nil error or
when attempt equals maxRetries; otherwise it waits retryDelay in a
select against ctx.Done(), returning (nil, ctx.Err()) when the
context fires during the wait.  The embedding takes next as a
function of the attempt index, the context as a predicate telling
whether it is done during the wait that follows a given attempt, and
returns the final outcome together with the number of invocations of
next. -/

/-- The retry loop of client.RetryMiddleware from a given attempt index
with a given number of further attempts allowed (remaining =
maxRetries - attempt).  cancel a = true means ctx.Done() fires during
the wait after attempt a; ctxErr is ctx.Err(). -/
def retryLoop {ε ρ : Type} (next : Nat → Except ε ρ) (cancel : Nat → Bool) (ctxErr : ε) :
    Nat → Nat → Except ε ρ × Nat
  | attempt, 0 => (next attempt, 1)
  | attempt, remaining + 1 =>
    match next attempt with
    | Except.ok r => (Except.ok r, 1)
    | Except.error _ =>
      if cancel attempt then
        (Except.error ctxErr, 1)
      else
        let rest := retryLoop next cancel ctxErr (attempt + 1) remaining
        (rest.1, rest.2 + 1)

/-- Embeds client.RetryMiddleware maxRetries: the handler it returns,
applied to a wrapped handler next, a context cancellation predicate
and the context error.  Result: final outcome and number of
invocations of next. -/
def RetryMiddleware {ε ρ : Type} (maxRetries : Nat) (next : Nat → Except ε ρ)
    (cancel : Nat → Bool) (ctxErr : ε) : Except ε ρ × Nat :=
  retryLoop next cancel ctxErr 0 maxRetries

theorem retryLoop_all_fail {ε ρ : Type} (next : Nat → Except ε ρ) (ctxErr : ε)
    (h : ∀ a, ∃ e, next a = Except.error e) :
    ∀ remaining attempt,
      retryLoop next (fun _ => false) ctxErr attempt remaining =
        (next (attempt + remaining), remaining + 1) := by
  intro remaining
  induction remaining with
  | zero => intro attempt; simp [retryLoop]
  | succ r ih =>
    intro attempt
    obtain ⟨e, he⟩ := h attempt
    simp only [retryLoop, he, ih (attempt + 1)]
    have harith : attempt + 1 + r = attempt + (r + 1) := by omega
    rw [harith]
    simp

/-- C2: for every maxRetries = k and every terminal handler failing on
every invocation (with no cancellation), RetryMiddleware invokes the
terminal handler exactly k + 1 times and returns the outcome of the
final invocation, the error of attempt k. -/
theorem retry_all_fail_count {ε ρ : Type} (k : Nat) (next : Nat → Except ε ρ) (ctxErr : ε)
    (h : ∀ a, ∃ e, next a = Except.error e) :
    RetryMiddleware k next (fun _ => false) ctxErr = (next k, k + 1) := by
  rw [RetryMiddleware, retryLoop_all_fail next ctxErr h k 0]
  simp

/-- Witness for C2: a handler failing every time under maxRetries = 2 is
invoked exactly 3 times and the error of attempt 2 is returned. -/
theorem retry_all_fail_count_witness :
    RetryMiddleware 2 (fun a => (Except.error (toString a) : Except String Unit))
      (fun _ => false) "ctx" = (Except.error "2", 3) :=
  retry_all_fail_count 2 (fun a => (Except.error (toString a) : Except String Unit))
    "ctx" (fun a => ⟨toString a, rfl⟩)

theorem retryLoop_cancel {ε ρ : Type} (next : Nat → Except ε ρ) (cancel : Nat → Bool)
    (ctxErr : ε) :
    ∀ d attempt remaining, d < remaining →
      (∀ a, attempt ≤ a → a ≤ attempt + d → ∃ e, next a = Except.error e) →
      (∀ a, attempt ≤ a → a < attempt + d → cancel a = false) →
      cancel (attempt + d) = true →
      retryLoop next cancel ctxErr attempt remaining = (Except.error ctxErr, d + 1) := by
  intro d
  induction d with
  | zero =>
    intro attempt remaining hlt hfail _hwait hfire
    obtain ⟨r, hr⟩ : ∃ r, remaining = r + 1 := ⟨remaining - 1, by omega⟩
    subst hr
    obtain ⟨e, he⟩ := hfail attempt (Nat.le_refl _) (by omega)
    simp only [Nat.add_zero] at hfire
    simp [retryLoop, he, hfire]
  | succ d ih =>
    intro attempt remaining hlt hfail hwait hfire
    obtain ⟨r, hr⟩ : ∃ r, remaining = r + 1 := ⟨remaining - 1, by omega⟩
    subst hr
    obtain ⟨e, he⟩ := hfail attempt (Nat.le_refl _) (by omega)
    have hc0 : cancel attempt = false := hwait attempt (Nat.le_refl _) (by omega)
    have hrec : retryLoop next cancel ctxErr (attempt + 1) r = (Except.error ctxErr, d + 1) := by
      refine ih (attempt + 1) r (by omega) ?_ ?_ ?_
      · intro a h1 h2
        exact hfail a (by omega) (by omega)
      · intro a h1 h2
        exact hwait a (by omega) (by omega)
      · have : attempt + 1 + d = attempt + (d + 1) := by omega
        rw [this]
        exact hfire
    simp [retryLoop, he, hc0, hrec]

/-- C7: cancelling the context while RetryMiddleware waits out the delay
after attempt j (all attempts up to j having failed, with j strictly
below maxRetries) returns the context error without a further
attempt: the terminal handler is invoked exactly j + 1 times and the
result is ctx.Err(). -/
theorem retry_cancelled_during_wait {ε ρ : Type} (k j : Nat) (next : Nat → Except ε ρ)
    (cancel : Nat → Bool) (ctxErr : ε) (hjk : j < k)
    (hfail : ∀ a, a ≤ j → ∃ e, next a = Except.error e)
    (hwait : ∀ a, a < j → cancel a = false) (hfire : cancel j = true) :
    RetryMiddleware k next cancel ctxErr = (Except.error ctxErr, j + 1) := by
  rw [RetryMiddleware]
  refine retryLoop_cancel next cancel ctxErr j 0 k hjk ?_ ?_ ?_
  · intro a _ h2
    exact hfail a (by omega)
  · intro a _ h2
    exact hwait a (by omega)
  · simpa using hfire

/-- Witness for C7: with maxRetries = 3, an always-failing handler and a
context already done at the first wait, the result is the context
error after exactly one invocation. -/
theorem retry_cancelled_during_wait_witness :
    RetryMiddleware 3 (fun _ => (Except.error "boom" : Except String Unit))
      (fun _ => true) "context canceled" = (Except.error "context canceled", 1) :=
  retry_cancelled_during_wait 3 0 (fun _ => (Except.error "boom" : Except String Unit))
    (fun _ => true) "context canceled" (by omega)
    (fun a _ => ⟨"boom", rfl⟩)
    (fun a ha => absurd ha (Nat.not_lt_zero a))
    rfl

/-! ## HTTP responses

The part of http.Response the service layer and the claims inspect:
the status code and the body content. -/

/-- The observable part of an http.Response: status code and body. -/
structure HTTPResponse where
  statusCode : Nat
  body : String
  deriving DecidableEq, Repr

theorem retryLoop_stop_ok {ε ρ : Type} (next : Nat → Except ε ρ) (cancel : Nat → Bool)
    (ctxErr : ε) (resp : ρ) :
    ∀ d attempt remaining, d ≤ remaining →
      (∀ a, attempt ≤ a → a < attempt + d → ∃ e, next a = Except.error e) →
      (∀ a, attempt ≤ a → a < attempt + d → cancel a = false) →
      next (attempt + d) = Except.ok resp →
      retryLoop next cancel ctxErr attempt remaining = (Except.ok resp, d + 1) := by
  intro d
  induction d with
  | zero =>
    intro attempt remaining _hle _hfail _hwait hok
    rw [Nat.add_zero] at hok
    cases remaining with
    | zero => simp [retryLoop, hok]
    | succ r => simp [retryLoop, hok]
  | succ d ih =>
    intro attempt remaining hle hfail hwait hok
    obtain ⟨r, hr⟩ : ∃ r, remaining = r + 1 := ⟨remaining - 1, by omega⟩
    subst hr
    obtain ⟨e, he⟩ := hfail attempt (Nat.le_refl _) (by omega)
    have hc0 : cancel attempt = false := hwait attempt (Nat.le_refl _) (by omega)
    have hrec : retryLoop next cancel ctxErr (attempt + 1) r = (Except.ok resp, d + 1) := by
      refine ih (attempt + 1) r (by omega) ?_ ?_ ?_
      · intro a h1 h2
        exact hfail a (by omega) (by omega)
      · intro a h1 h2
        exact hwait a (by omega) (by omega)
      · have harith : attempt + 1 + d = attempt + (d + 1) := by omega
        rw [harith]
        exact hok
    simp [retryLoop, he, hc0, hrec]

/-- C9: RetryMiddleware re-attempts only on a non-nil error: any
invocation returning a response with a nil error, whatever its status
code (including 4xx and 5xx) and wherever it falls in the attempt
sequence, ends retrying at once and that response is returned to the
caller with no further attempt.  If attempt j (with j within the
attempt budget) returns a response with a nil error, the earlier
attempts having failed without the context firing, the middleware
returns that response after exactly j + 1 invocations. -/
theorem retry_stops_on_nil_error (k j : Nat) (next : Nat → Except String HTTPResponse)
    (cancel : Nat → Bool) (ctxErr : String) (resp : HTTPResponse) (hjk : j ≤ k)
    (hfail : ∀ a, a < j → ∃ e, next a = Except.error e)
    (hwait : ∀ a, a < j → cancel a = false)
    (hok : next j = Except.ok resp) :
    RetryMiddleware k next cancel ctxErr = (Except.ok resp, j + 1) := by
  rw [RetryMiddleware]
  refine retryLoop_stop_ok next cancel ctxErr resp j 0 k hjk ?_ ?_ ?_
  · intro a _ h2
    exact hfail a (by omega)
  · intro a _ h2
    exact hwait a (by omega)
  · simpa using hok

/-- Witness for C9: under maxRetries = 5, a handler failing on attempts
0 and 1 and then returning a 502 response with a nil error on attempt
2 is invoked exactly 3 times and the 502 response is returned. -/
theorem retry_stops_on_nil_error_witness :
    RetryMiddleware 5
      (fun a => if a < 2 then (Except.error "boom" : Except String HTTPResponse)
        else Except.ok ⟨502, "bad gateway"⟩)
      (fun _ => false) "ctx" = (Except.ok ⟨502, "bad gateway"⟩, 3) :=
  retry_stops_on_nil_error 5 2
    (fun a => if a < 2 then (Except.error "boom" : Except String HTTPResponse)
      else Except.ok ⟨502, "bad gateway"⟩)
    (fun _ => false) "ctx" ⟨502, "bad gateway"⟩ (by omega)
    (fun a ha => ⟨"boom", by simp [ha]⟩)
    (fun a _ => rfl)
    (by norm_num)

/-! ## Generic resource service (src/client/resource.go)

Each operation of Service is embedded as a function of the outcomes
of its effectful steps: newReq is the outcome of
http.NewRequestWithContext, doReq the outcome of client.doRequest,
decode the outcome of json.Decode on a given body, marshal the
outcome of json.Marshal of the entity, and readBody (Create only) the
outcome of io.ReadAll(resp.Body) on the unexpected-status branch.
The Go return pair (ptr, err) is a pair of options. -/

/-- The message of the error returned by Get, List and Update on an
unexpected status: fmt.Errorf of the status code alone
(resource.go lines 59, 99 and 201). -/
def unexpectedStatusMsg (code : Nat) : String :=
  "unexpected status code: " ++ toString code

/-- The message of the error returned by Create on an unexpected status:
fmt.Errorf of the status code and the body read from the response
(resource.go line 155). -/
def unexpectedStatusBodyMsg (code : Nat) (body : String) : String :=
  "unexpected status code: " ++ toString code ++ ", body: " ++ body

/-- Embeds Service.Get (resource.go lines 36-73): build the request, run
it through doRequest, require status 200, decode the body. -/
def serviceGet {α : Type} (newReq : Except String Unit) (doReq : Except String HTTPResponse)
    (decode : String → Except String α) : Option α × Option String :=
  match newReq with
  | Except.error e => (none, some e)
  | Except.ok _ =>
    match doReq with
    | Except.error e => (none, some e)
    | Except.ok resp =>
      if resp.statusCode ≠ 200 then
        (none, some (unexpectedStatusMsg resp.statusCode))
      else
        match decode resp.body with
        | Except.error e => (none, some e)
        | Except.ok t => (some t, none)

/-- Embeds Service.List (resource.go lines 76-113): identical control
flow to Get against the list path with the caller query parameters. -/
def serviceList {α : Type} (newReq : Except String Unit) (doReq : Except String HTTPResponse)
    (decode : String → Except String α) : Option α × Option String :=
  match newReq with
  | Except.error e => (none, some e)
  | Except.ok _ =>
    match doReq with
    | Except.error e => (none, some e)
    | Except.ok resp =>
      if resp.statusCode ≠ 200 then
        (none, some (unexpectedStatusMsg resp.statusCode))
      else
        match decode resp.body with
        | Except.error e => (none, some e)
        | Except.ok t => (some t, none)

/-- Embeds Service.Create (resource.go lines 116-169): marshal the
entity, build the request, run it, and on any status other than 201
read the body (a read error is returned as such) and fail with status
and body; on 201 decode the body. -/
def serviceCreate {α : Type} (marshal : Except String String) (newReq : Except String Unit)
    (doReq : Except String HTTPResponse) (readBody : Except String String)
    (decode : String → Except String α) : Option α × Option String :=
  match marshal with
  | Except.error e => (none, some e)
  | Except.ok _ =>
    match newReq with
    | Except.error e => (none, some e)
    | Except.ok _ =>
      match doReq with
      | Except.error e => (none, some e)
      | Except.ok resp =>
        if resp.statusCode ≠ 201 then
          match readBody with
          | Except.error e => (none, some e)
          | Except.ok b => (none, some (unexpectedStatusBodyMsg resp.statusCode b))
        else
          match decode resp.body with
          | Except.error e => (none, some e)
          | Except.ok t => (some t, none)

/-- Embeds Service.Update (resource.go lines 172-215): marshal the
entity, build the request, run it, require status 200, decode. -/
def serviceUpdate {α : Type} (marshal : Except String String) (newReq : Except String Unit)
    (doReq : Except String HTTPResponse) (decode : String → Except String α) :
    Option α × Option String :=
  match marshal with
  | Except.error e => (none, some e)
  | Except.ok _ =>
    match newReq with
    | Except.error e => (none, some e)
    | Except.ok _ =>
      match doReq with
      | Except.error e => (none, some e)
      | Except.ok resp =>
        if resp.statusCode ≠ 200 then
          (none, some (unexpectedStatusMsg resp.statusCode))
        else
          match decode resp.body with
          | Except.error e => (none, some e)
          | Except.ok t => (some t, none)

/-- A string message mentions a piece of text when that text occurs
contiguously inside it. -/
def errMentions (needle msg : String) : Prop :=
  ∃ pre post, msg = pre ++ needle ++ post

theorem string_data_append (a b : String) : (a ++ b).data = a.data ++ b.data := rfl

theorem errMentions_char {needle msg : String} (c : Char) (hc : c ∈ needle.data)
    (hm : c ∉ msg.data) : ¬ errMentions needle msg := by
  rintro ⟨pre, post, h⟩
  apply hm
  rw [h, string_data_append, string_data_append]
  exact List.mem_append_left _ (List.mem_append_right _ hc)

/-- C3 counterexample: Service.Get receiving status 404 with body
"missing" returns the error built from the status code alone
(resource.go line 59); the body is not attached to the returned
failure, so the claim that the failure carries the raw response body
is false at this input. -/
theorem get_non200_body_not_attached :
    serviceGet (Except.ok ()) (Except.ok ⟨404, "missing"⟩)
        (fun _ => (Except.error "decode failure" : Except String Unit)) =
      (none, some (unexpectedStatusMsg 404)) ∧
    ¬ errMentions "missing" (unexpectedStatusMsg 404) := by
  constructor
  · rfl
  · refine errMentions_char (c := 'm') ?_ ?_
    · decide
    · decide

/-- C3 amended: for each of Get, List and Update, a response whose
status code is not 200 yields a failure that carries the numeric
status code (the raw body is not part of the returned error), and no
decoded result is returned. -/
theorem service_non200_status_error {α : Type} (code : Nat) (body mBody : String)
    (decode : String → Except String α) (h : code ≠ 200) :
    serviceGet (Except.ok ()) (Except.ok ⟨code, body⟩) decode =
      (none, some (unexpectedStatusMsg code)) ∧
    serviceList (Except.ok ()) (Except.ok ⟨code, body⟩) decode =
      (none, some (unexpectedStatusMsg code)) ∧
    serviceUpdate (Except.ok mBody) (Except.ok ()) (Except.ok ⟨code, body⟩) decode =
      (none, some (unexpectedStatusMsg code)) ∧
    errMentions (toString code) (unexpectedStatusMsg code) := by
  refine ⟨?_, ?_, ?_, ?_⟩
  · simp [serviceGet, h]
  · simp [serviceList, h]
  · simp [serviceUpdate, h]
  · exact ⟨"unexpected status code: ", "", by simp [unexpectedStatusMsg]⟩

/-- Witness for C3 amended: Get, List and Update at status 503 all
return no result and the status-code error. -/
theorem service_non200_status_error_witness :
    serviceGet (Except.ok ()) (Except.ok ⟨503, "oops"⟩)
        (fun _ => (Except.error "decode failure" : Except String Unit)) =
      (none, some (unexpectedStatusMsg 503)) ∧
    serviceList (Except.ok ()) (Except.ok ⟨503, "oops"⟩)
        (fun _ => (Except.error "decode failure" : Except String Unit)) =
      (none, some (unexpectedStatusMsg 503)) ∧
    serviceUpdate (Except.ok "{}") (Except.ok ()) (Except.ok ⟨503, "oops"⟩)
        (fun _ => (Except.error "decode failure" : Except String Unit)) =
      (none, some (unexpectedStatusMsg 503)) ∧
    errMentions (toString 503) (unexpectedStatusMsg 503) :=
  service_non200_status_error 503 "oops" "{}"
    (fun _ => (Except.error "decode failure" : Except String Unit)) (by decide)

/-- C4: a Create receiving any status other than 201 (with the
response body readable) returns a failure whose message carries that
status code and the body, and no decoded entity; exactly status 201
leads to decoding the response body into the entity envelope. -/
theorem create_status_handling {α : Type} (mBody : String) (code : Nat) (body : String)
    (decode : String → Except String α) (h : code ≠ 201) :
    serviceCreate (Except.ok mBody) (Except.ok ()) (Except.ok ⟨code, body⟩)
        (Except.ok body) decode =
      (none, some (unexpectedStatusBodyMsg code body)) ∧
    errMentions (toString code) (unexpectedStatusBodyMsg code body) ∧
    errMentions body (unexpectedStatusBodyMsg code body) ∧
    (∀ body2 : String, ∀ readBody : Except String String,
      serviceCreate (Except.ok mBody) (Except.ok ()) (Except.ok ⟨201, body2⟩)
          readBody decode =
        match decode body2 with
        | Except.error e => (none, some e)
        | Except.ok t => (some t, none)) := by
  refine ⟨?_, ?_, ?_, ?_⟩
  · simp [serviceCreate, h]
  · exact ⟨"unexpected status code: ", ", body: " ++ body,
      by simp [unexpectedStatusBodyMsg, String.append_assoc]⟩
  · exact ⟨"unexpected status code: " ++ toString code ++ ", body: ", "",
      by simp [unexpectedStatusBodyMsg, String.append_assoc]⟩
  · intro body2 readBody
    simp [serviceCreate]

/-- Witness for C4: Create at status 400 with body "bad" returns the
failure carrying status and body, and at 201 decodes the body. -/
theorem create_status_handling_witness :
    serviceCreate (Except.ok "{}") (Except.ok ()) (Except.ok ⟨400, "bad"⟩)
        (Except.ok "bad") (fun s => (Except.ok s : Except String String)) =
      (none, some (unexpectedStatusBodyMsg 400 "bad")) ∧
    errMentions (toString 400) (unexpectedStatusBodyMsg 400 "bad") ∧
    errMentions "bad" (unexpectedStatusBodyMsg 400 "bad") ∧
    (∀ body2 : String, ∀ readBody : Except String String,
      serviceCreate (Except.ok "{}") (Except.ok ()) (Except.ok ⟨201, body2⟩)
          readBody (fun s => (Except.ok s : Except String String)) =
        match (Except.ok body2 : Except String String) with
        | Except.error e => (none, some e)
        | Except.ok t => (some t, none)) :=
  create_status_handling "{}" 400 "bad" (fun s => (Except.ok s : Except String String))
    (by decide)

/-- C10: every generic service operation returns exactly one of a
present decoded result with no error, or no result with a present
error — never both present and never both absent. -/
theorem service_result_error_dichotomy {α : Type} (marshal : Except String String)
    (newReq : Except String Unit) (doReq : Except String HTTPResponse)
    (readBody : Except String String) (decode : String → Except String α) :
    (let r := serviceGet newReq doReq decode;
      (r.1.isSome ∧ r.2 = none) ∨ (r.1 = none ∧ r.2.isSome)) ∧
    (let r := serviceList newReq doReq decode;
      (r.1.isSome ∧ r.2 = none) ∨ (r.1 = none ∧ r.2.isSome)) ∧
    (let r := serviceCreate marshal newReq doReq readBody decode;
      (r.1.isSome ∧ r.2 = none) ∨ (r.1 = none ∧ r.2.isSome)) ∧
    (let r := serviceUpdate marshal newReq doReq decode;
      (r.1.isSome ∧ r.2 = none) ∨ (r.1 = none ∧ r.2.isSome)) := by
  refine ⟨?_, ?_, ?_, ?_⟩
  · rcases newReq with e | u
    · simp [serviceGet]
    · rcases doReq with e | resp
      · simp [serviceGet]
      · by_cases hs : resp.statusCode ≠ 200
        · simp [serviceGet, hs]
        · rcases hd : decode resp.body with e | t
          · simp [serviceGet, hs, hd]
          · simp [serviceGet, hs, hd]
  · rcases newReq with e | u
    · simp [serviceList]
    · rcases doReq with e | resp
      · simp [serviceList]
      · by_cases hs : resp.statusCode ≠ 200
        · simp [serviceList, hs]
        · rcases hd : decode resp.body with e | t
          · simp [serviceList, hs, hd]
          · simp [serviceList, hs, hd]
  · rcases marshal with e | m
    · simp [serviceCreate]
    · rcases newReq with e | u
      · simp [serviceCreate]
      · rcases doReq with e | resp
        · simp [serviceCreate]
        · by_cases hs : resp.statusCode ≠ 201
          · rcases readBody with e | b
            · simp [serviceCreate, hs]
            · simp [serviceCreate, hs]
          · rcases hd : decode resp.body with e | t
            · simp [serviceCreate, hs, hd]
            · simp [serviceCreate, hs, hd]
  · rcases marshal with e | m
    · simp [serviceUpdate]
    · rcases newReq with e | u
      · simp [serviceUpdate]
      · rcases doReq with e | resp
        · simp [serviceUpdate]
        · by_cases hs : resp.statusCode ≠ 200
          · simp [serviceUpdate, hs]
          · rcases hd : decode resp.body with e | t
            · simp [serviceUpdate, hs, hd]
            · simp [serviceUpdate, hs, hd]

/-! ## Filter expression builder

The filter builder implementation file is not among the sources; only
its test file (src/unnamed/part_005) is.  The definitions below are
therefore modelled from the specification (sections 4.2 and 8) and
checked for consistency with the expectations recorded in the tests.
Serialization to JSON text and parsing back are modelled by the
document tree itself; where a claim speaks of the parsed structure it
is stated on the tree. -/

/-- A JSON document, used as the filter expression value type. -/
inductive JSON where
  | null : JSON
  | bool : Bool → JSON
  | num : Int → JSON
  | str : String → JSON
  | arr : List JSON → JSON
  | obj : List (String × JSON) → JSON

/-- Set a key in an object field list, overwriting in place when the key
is present and appending otherwise. -/
def setKey (k : String) (v : JSON) : List (String × JSON) → List (String × JSON)
  | [] => [(k, v)]
  | p :: rest => if p.1 = k then (k, v) :: rest else p :: setKey k v rest

/-- Look a key up in an object field list. -/
def getKey (k : String) : List (String × JSON) → Option JSON
  | [] => none
  | p :: rest => if p.1 = k then some p.2 else getKey k rest

/-- Modelled from the spec: the FilterBuilder state, a document mapping
each field to the object of operator conditions accumulated for it
(the implementation file of the builder is absent from the sources;
its test file initializes the state as an empty map named filter). -/
structure FilterBuilder where
  filter : List (String × JSON)

/-- Modelled from the spec: a fresh filter is the empty expression. -/
def NewFilter : FilterBuilder := ⟨[]⟩

/-- Modelled from the spec: a comparison call sets or overwrites the
given operator key under the given field, accumulating one key per
operator under that field without discarding previously set distinct
operators. -/
def FilterBuilder.setCondition (f : FilterBuilder) (field op : String) (v : JSON) :
    FilterBuilder :=
  match getKey field f.filter with
  | some (JSON.obj conds) => ⟨setKey field (JSON.obj (setKey op v conds)) f.filter⟩
  | _ => ⟨setKey field (JSON.obj [(op, v)]) f.filter⟩

/-- Modelled from the spec: Eq sets the $eq operator for the field. -/
def FilterBuilder.Eq (f : FilterBuilder) (field : String) (v : JSON) : FilterBuilder :=
  f.setCondition field "$eq" v

/-- Modelled from the spec: Ne sets the $ne operator for the field. -/
def FilterBuilder.Ne (f : FilterBuilder) (field : String) (v : JSON) : FilterBuilder :=
  f.setCondition field "$ne" v

/-- Modelled from the spec: Lt sets the $lt operator for the field. -/
def FilterBuilder.Lt (f : FilterBuilder) (field : String) (v : JSON) : FilterBuilder :=
  f.setCondition field "$lt" v

/-- Modelled from the spec: Lte sets the $lte operator for the field. -/
def FilterBuilder.Lte (f : FilterBuilder) (field : String) (v : JSON) : FilterBuilder :=
  f.setCondition field "$lte" v

/-- Modelled from the spec: Gt sets the $gt operator for the field. -/
def FilterBuilder.Gt (f : FilterBuilder) (field : String) (v : JSON) : FilterBuilder :=
  f.setCondition field "$gt" v

/-- Modelled from the spec: Gte sets the $gte operator for the field. -/
def FilterBuilder.Gte (f : FilterBuilder) (field : String) (v : JSON) : FilterBuilder :=
  f.setCondition field "$gte" v

/-- Modelled from the spec: In sets $in to the literal value sequence. -/
def FilterBuilder.In (f : FilterBuilder) (field : String) (vs : List JSON) : FilterBuilder :=
  f.setCondition field "$in" (JSON.arr vs)

/-- Modelled from the spec: Nin sets $nin to the literal value sequence. -/
def FilterBuilder.Nin (f : FilterBuilder) (field : String) (vs : List JSON) : FilterBuilder :=
  f.setCondition field "$nin" (JSON.arr vs)

/-- Modelled from the spec: And sets the $and key to the array of the
fully built documents of the supplied sub-filters, in argument order. -/
def FilterBuilder.And (f : FilterBuilder) (subs : List FilterBuilder) : FilterBuilder :=
  ⟨setKey "$and" (JSON.arr (subs.map (fun s => JSON.obj s.filter))) f.filter⟩

/-- Modelled from the spec: Or sets the $or key to the array of the
fully built documents of the supplied sub-filters, in argument order. -/
def FilterBuilder.Or (f : FilterBuilder) (subs : List FilterBuilder) : FilterBuilder :=
  ⟨setKey "$or" (JSON.arr (subs.map (fun s => JSON.obj s.filter))) f.filter⟩

/-- Modelled from the spec: Build serializes the expression tree; the
empty filter serializes to the empty object. -/
def FilterBuilder.Build (f : FilterBuilder) : JSON := JSON.obj f.filter

/-- The six single-value comparison operator calls of the builder. -/
inductive CompOp where
  | ceq | cne | clt | clte | cgt | cgte
  deriving DecidableEq, Repr

/-- The operator key each comparison call writes. -/
def CompOp.opName : CompOp → String
  | .ceq => "$eq"
  | .cne => "$ne"
  | .clt => "$lt"
  | .clte => "$lte"
  | .cgt => "$gt"
  | .cgte => "$gte"

/-- Dispatch a comparison call on the builder. -/
def CompOp.applyTo : CompOp → FilterBuilder → String → JSON → FilterBuilder
  | .ceq, f, field, v => f.Eq field v
  | .cne, f, field, v => f.Ne field v
  | .clt, f, field, v => f.Lt field v
  | .clte, f, field, v => f.Lte field v
  | .cgt, f, field, v => f.Gt field v
  | .cgte, f, field, v => f.Gte field v

/-- C5: any single comparison call on a fresh builder builds a document
whose field key maps to an object with exactly the one key written by
that operator; a second, distinct comparison operator on the same
field accumulates a second key under the field instead of
overwriting the first. -/
theorem filter_comparison_single_key :
    (∀ (o : CompOp) (field : String) (v : JSON),
      (o.applyTo NewFilter field v).Build =
        JSON.obj [(field, JSON.obj [(o.opName, v)])]) ∧
    (∀ (o1 o2 : CompOp) (field : String) (v1 v2 : JSON), o1 ≠ o2 →
      (o2.applyTo (o1.applyTo NewFilter field v1) field v2).Build =
        JSON.obj [(field, JSON.obj [(o1.opName, v1), (o2.opName, v2)])]) := by
  constructor
  · intro o field v
    cases o <;> rfl
  · intro o1 o2 field v1 v2 hne
    cases o1 <;> cases o2 <;>
      first
        | exact absurd rfl hne
        | simp [CompOp.applyTo, CompOp.opName, FilterBuilder.Eq, FilterBuilder.Ne,
            FilterBuilder.Lt, FilterBuilder.Lte, FilterBuilder.Gt, FilterBuilder.Gte,
            FilterBuilder.setCondition, FilterBuilder.Build, NewFilter, getKey, setKey]

/-- Witness for C5: Gte then Lte on the same field yields both operator
keys under that field. -/
theorem filter_comparison_single_key_witness :
    (CompOp.clte.applyTo (CompOp.cgte.applyTo NewFilter "priority" (JSON.num 1))
        "priority" (JSON.num 5)).Build =
      JSON.obj [("priority", JSON.obj [("$gte", JSON.num 1), ("$lte", JSON.num 5)])] :=
  filter_comparison_single_key.2 CompOp.cgte CompOp.clte "priority"
    (JSON.num 1) (JSON.num 5) (by decide)

/-- C6: combining two already built sub-filters with And on a fresh
builder yields the document with a single $and key holding the two
built children in argument order, and likewise for Or. -/
theorem filter_and_or_children_in_order (A B : FilterBuilder) :
    ((NewFilter.And [A, B]).Build = JSON.obj [("$and", JSON.arr [A.Build, B.Build])]) ∧
    ((NewFilter.Or [A, B]).Build = JSON.obj [("$or", JSON.arr [A.Build, B.Build])]) :=
  ⟨rfl, rfl⟩

/-! ## Fixture generator ticket-type lookup (src/main.go lines 128-142)

The generator walks all ticket types, all inboxes, and each ticket
type inbox association; on a match it assigns the ticket type to t
and breaks, but the break exits only the innermost loop, so the outer
iterations continue and a later matching ticket type overwrites t. -/

/-- A reference to an entity by identifier (models.EntityRef). -/
structure EntityRef where
  id : Int
  deriving DecidableEq, Repr

/-- The part of models.Inbox the lookup reads: its identifier. -/
structure Inbox where
  id : Int
  deriving DecidableEq, Repr

/-- The part of models.TicketType the lookup reads: its identifier and
its associated inboxes. -/
structure TicketType where
  id : Int
  inboxes : List EntityRef
  deriving DecidableEq, Repr

/-- The zero value of models.TicketType as declared by var t. -/
def zeroTicketType : TicketType := ⟨0, []⟩

/-- The innermost loop over the inbox associations of a ticket type:
on the first association matching the inbox it assigns tt and breaks. -/
def ttInboxLoop (t tt : TicketType) (inboxID : Int) : List EntityRef → TicketType
  | [] => t
  | r :: rest => if r.id = inboxID then tt else ttInboxLoop t tt inboxID rest

/-- The middle loop over the available inboxes. -/
def inboxLoop (t tt : TicketType) : List Inbox → TicketType
  | [] => t
  | ibx :: rest => inboxLoop (ttInboxLoop t tt ibx.id tt.inboxes) tt rest

/-- The outer loop over the listed ticket types. -/
def typeLoop (t : TicketType) (inboxes : List Inbox) : List TicketType → TicketType
  | [] => t
  | tt :: rest => typeLoop (inboxLoop t tt inboxes) inboxes rest

/-- The complete ticket-type lookup of generateData in main.go. -/
def lookupTicketType (types : List TicketType) (inboxes : List Inbox) : TicketType :=
  typeLoop zeroTicketType inboxes types

/-- A ticket type is associated with one of the available inboxes when
some of its inbox references matches some available inbox. -/
def ticketTypeMatches (tt : TicketType) (inboxes : List Inbox) : Bool :=
  inboxes.any (fun ibx => tt.inboxes.any (fun r => r.id == ibx.id))

theorem ttInboxLoop_eq_if (t tt : TicketType) (inboxID : Int) (refs : List EntityRef) :
    ttInboxLoop t tt inboxID refs =
      if refs.any (fun r => r.id == inboxID) then tt else t := by
  induction refs with
  | nil => simp [ttInboxLoop]
  | cons r rest ih =>
    by_cases h : r.id = inboxID
    · simp [ttInboxLoop, h]
    · simp [ttInboxLoop, h, ih]

theorem inboxLoop_eq_if (t tt : TicketType) (inboxes : List Inbox) :
    inboxLoop t tt inboxes = if ticketTypeMatches tt inboxes then tt else t := by
  induction inboxes generalizing t with
  | nil => simp [inboxLoop, ticketTypeMatches]
  | cons ibx rest ih =>
    simp only [inboxLoop, ih, ttInboxLoop_eq_if, ticketTypeMatches, List.any_cons] at *
    by_cases h : tt.inboxes.any (fun r => r.id == ibx.id)
    · simp [h]
    · simp [h]

theorem getLastD_cons {α : Type} : ∀ (l : List α) (x d : α),
    ((x :: l).getLast?).getD d = (l.getLast?).getD x := by
  intro l
  induction l with
  | nil => intro x d; rfl
  | cons y ys ih =>
    intro x d
    rw [List.getLast?_cons_cons, ih y d, ih y x]

theorem typeLoop_eq_lastMatch (inboxes : List Inbox) (types : List TicketType)
    (t : TicketType) :
    typeLoop t inboxes types =
      ((types.filter (fun tt => ticketTypeMatches tt inboxes)).getLast?).getD t := by
  induction types generalizing t with
  | nil => rfl
  | cons tt rest ih =>
    simp only [typeLoop, inboxLoop_eq_if, List.filter_cons]
    by_cases h : ticketTypeMatches tt inboxes
    · simp only [h, if_true]
      rw [ih tt, getLastD_cons]
    · simp only [h, Bool.false_eq_true, if_false]
      exact ih t

/-- C8: the break in the ticket-type lookup exits only the innermost
loop, so the outer loops keep iterating and the ticket type selected
is the last one, in ticket-type iteration order, associated with some
available inbox, overwriting any earlier match; when none matches the
zero-valued ticket type remains. -/
theorem lookup_ticket_type_last_match (types : List TicketType) (inboxes : List Inbox) :
    lookupTicketType types inboxes =
      ((types.filter (fun tt => ticketTypeMatches tt inboxes)).getLast?).getD
        zeroTicketType := by
  rw [lookupTicketType, typeLoop_eq_lastMatch]

end DeskSDK
